import Mathlib

/-!
Verification of the hierarchical-data extraction core of
`src/gpu/src/morph_kgc/data_source/data_file.py`.

The file shallowly embeds the Python source: the JSON reader `_read_json`,
the XML reader `_read_xml`, the flat-format wrappers (`_read_csv`,
`_read_parquet`, `_read_sas`, ...) and the dispatcher `get_file_data`.
External-library operations that the source calls (pandas
`DataFrame.from_records`, `json_normalize`, `dropna`, `explode`,
ElementTree `findall`, elementpath `iter_select`, jsonpath field
selection) are embedded with their documented semantics on the fragment
of inputs the source exercises.  All extracted values are text or null,
matching the source (no type coercion happens in the hierarchical path).
-/

/-- A cell of a pandas DataFrame as used by the two hierarchical readers:
either a Python list of element texts (`[r.text for r in e.findall(ref)]`,
where a text may be `None`), a scalar text value (possibly `None`), or
`np.nan` (used to fill missing columns and produced by exploding an
empty list). -/
inductive Cell : Type where
  | vlist (xs : List (Option String))
  | scalar (x : Option String)
  | nan
deriving DecidableEq, Repr

/-- Model of `pandas.isna` on a cell: Python lists are never null; a `None` scalar
and `np.nan` are null. -/
def Cell.isNull : Cell → Bool
  | Cell.vlist _ => false
  | Cell.scalar none => true
  | Cell.scalar (some _) => false
  | Cell.nan => true

/-- A pandas DataFrame: a column-name list and rows aligned positionally
with the columns. -/
structure DF : Type where
  columns : List String
  rows : List (List Cell)
deriving DecidableEq, Repr

/-- Errors surfaced by the readers (the spec's taxonomy: a path or
reference that cannot be compiled, an unreadable source, and the
dispatcher's `ValueError`). -/
inductive FileError : Type where
  | invalidPathExpression (s : String)
  | invalidReferenceExpression (s : String)
  | sourceUnreadable
  | valueError (msg : String)
deriving DecidableEq, Repr

/-- Effectful map over `Except`, written out so that its equations are directly
usable in proofs.  Matches a Python loop that raises at the first failure. -/
def mapME {α β : Type} (f : α → Except FileError β) : List α → Except FileError (List β)
  | [] => Except.ok []
  | x :: xs =>
    match f x with
    | Except.error e => Except.error e
    | Except.ok y =>
      match mapME f xs with
      | Except.error e => Except.error e
      | Except.ok ys => Except.ok (y :: ys)

/-- Keep the first occurrence of each element (the order in which pandas
`json_normalize` discovers columns). -/
def firstDedup {α : Type} [DecidableEq α] (seen : List α) : List α → List α
  | [] => []
  | x :: xs => if x ∈ seen then firstDedup seen xs else x :: firstDedup (x :: seen) xs

/- ## XML documents and paths -/

/-- An XML element as parsed by `xml.etree.ElementTree`: a tag, the
element's text (`.text`, `None` when the element has no text) and its
child elements in document order. -/
inductive XElem : Type where
  | mk (tag : String) (text : Option String) (children : List XElem)
deriving Repr

def XElem.tag : XElem → String
  | XElem.mk t _ _ => t

def XElem.text : XElem → Option String
  | XElem.mk _ x _ => x

def XElem.children : XElem → List XElem
  | XElem.mk _ _ cs => cs

/-- Characters allowed in a tag / field-name token of the modelled path
language. -/
def validFieldChar (c : Char) : Bool := c.isAlphanum || c = '_'

/-- Split a character list at a separator; agrees with Python's
`str.split(sep)` (and keeps empty segments). -/
def splitSegs (sep : Char) : List Char → List (List Char)
  | [] => [[]]
  | c :: rest =>
    let r := splitSegs sep rest
    if c = sep then [] :: r
    else
      match r with
      | [] => [[c]]
      | s :: ss => (c :: s) :: ss

/-- A valid name token: nonempty, made of name characters. -/
def validFieldName (s : String) : Bool := !s.isEmpty && s.toList.all validFieldChar

/-- Model of `e.findall(path)` for a child-axis path already split into tag
segments: matches run over children, in document order (ElementTree
returns matches in document order). -/
def findallSegs : XElem → List String → List XElem
  | e, [] => [e]
  | e, t :: ts => (e.children.filter (fun c => c.tag = t)).flatMap (fun c => findallSegs c ts)

/-- Parse the iterator path handed to `elementpath.iter_select`.  The
embedding models the absolute child-axis name-path fragment of XPath
(`/root/item`): exactly these strings parse, and `iterSelect` gives them
their XPath meaning.  Iterators outside the fragment (descendant axes,
wildcards, predicates, relative paths) are not given semantics here and
are mapped to the path error; no theorem of this development asserts
that such a string fails the real call — theorems only ever assume a
successful parse. -/
def parseIterPath (s : String) : Except FileError (List String) :=
  match s.toList with
  | '/' :: rest =>
    let segs := (splitSegs '/' rest).map String.mk
    if segs.all validFieldName then Except.ok segs
    else Except.error (FileError.invalidPathExpression s)
  | _ => Except.error (FileError.invalidPathExpression s)

/-- Parse a field reference handed to `ElementTree.findall`.  The
embedding models the relative child-axis name-path fragment
(`creator/name`): exactly these strings parse, with `findallSegs` giving
them their ElementTree meaning.  References outside the fragment
(descendant axes, wildcards, predicates) are not given semantics here
and are mapped to the reference error; no theorem asserts that such a
string fails the real call. -/
def parseRef (s : String) : Except FileError (List String) :=
  let segs := (splitSegs '/' s.toList).map String.mk
  if segs.all validFieldName then Except.ok segs
  else Except.error (FileError.invalidReferenceExpression s)

/-- Model of `elementpath.iter_select(root, iterator)`: the first segment names the
root element, the rest descend through children; document order is
preserved. -/
def iterSelect (root : XElem) : List String → List XElem
  | [] => []
  | t :: ts => if root.tag = t then findallSegs root ts else []

/- ## pandas operations used by `_read_xml` -/

/-- Model of `Series.explode` on one cell: a nonempty list becomes its elements,
an empty list becomes a single `np.nan`, scalars (and `np.nan`) are kept
as one row. -/
def explodeCell : Cell → List Cell
  | Cell.vlist [] => [Cell.nan]
  | Cell.vlist (x :: xs) => (x :: xs).map Cell.scalar
  | Cell.scalar x => [Cell.scalar x]
  | Cell.nan => [Cell.nan]

/-- Model of `DataFrame.explode` at column position `i`: each row is replaced by
one copy per exploded value of its `i`-th cell, in order. -/
def explodeAtRows (i : Nat) (rows : List (List Cell)) : List (List Cell) :=
  rows.flatMap (fun row => (explodeCell (row.getD i Cell.nan)).map (fun c => row.set i c))

/-- Model of `DataFrame.explode(name)` on a frame with unique column
labels: locate the column by name, explode it.  pandas raises
`ValueError` when the frame's columns are not unique; `read_xml` models
that check (its frame's columns are the reference list throughout the
loop), so this operation is only reached under a duplicate-free column
list, where the first-occurrence lookup is exact. -/
def DF.explode (df : DF) (name : String) : DF :=
  ⟨df.columns, explodeAtRows (df.columns.indexOf name) df.rows⟩

/-- Model of `df[missing] = np.nan`: append the named columns, filled with
`np.nan` in every row. -/
def DF.addNanCols (df : DF) (missing : List String) : DF :=
  ⟨df.columns ++ missing, df.rows.map (fun row => row ++ missing.map (fun _ => Cell.nan))⟩

/-- Model of `df.dropna(axis=0, how='any')`: drop the rows containing a null cell. -/
def DF.dropnaAny (df : DF) : DF :=
  ⟨df.columns, df.rows.filter (fun row => !(row.any Cell.isNull))⟩

/-- The cells of one record row of `_read_xml`:
`[[r.text for r in e.findall(reference)] for reference in references]`,
with the references already parsed into segment lists. -/
def xmlRecordCells (rsegs : List (List String)) (e : XElem) : List Cell :=
  rsegs.map (fun segs => Cell.vlist ((findallSegs e segs).map XElem.text))

/-- Duplicate check of `pandas.DataFrame.explode`: pandas raises
`ValueError("DataFrame columns must be unique...")` whenever the frame's
column labels are not unique, on every `explode` call — including on a
frame with zero rows. -/
def hasDupColumn : List String → Bool
  | [] => false
  | c :: cs => (decide (c ∈ cs)) || hasDupColumn cs

/-- Embedding of `_read_xml` (data_file.py lines 147-168) on an already-parsed
document: select the records with the iterator path, build one row of
text-lists per record (`pd.DataFrame.from_records(..., columns=references)`),
add null columns for references missing from the DataFrame, drop rows
containing nulls, then explode every reference column left to right
(each `explode` call raises if the column labels are not unique).
A path or reference the library cannot compile raises, aborting the call. -/
def read_xml (doc : XElem) (iterator : String) (references : List String) :
    Except FileError DF :=
  match parseIterPath iterator with
  | Except.error e => Except.error e
  | Except.ok isegs =>
    let recs := iterSelect doc isegs
    match mapME (fun e => mapME
        (fun r => (parseRef r).map
          (fun segs => Cell.vlist ((findallSegs e segs).map XElem.text))) references) recs with
    | Except.error e => Except.error e
    | Except.ok cells =>
      let df0 : DF := ⟨references, cells⟩
      let missing := (firstDedup [] references).filter (fun r => !(decide (r ∈ df0.columns)))
      let df2 := (df0.addNanCols missing).dropnaAny
      if hasDupColumn references then
        Except.error (FileError.valueError ("DataFrame columns must be unique"))
      else
        Except.ok (references.foldl DF.explode df2)

example :
    read_xml
      (XElem.mk ("root") none
        [XElem.mk ("item") none
          [XElem.mk ("name") (some ("Ann")) [],
           XElem.mk ("tag") (some ("x")) [],
           XElem.mk ("tag") (some ("y")) []],
         XElem.mk ("item") none
          [XElem.mk ("name") (some ("Bob")) []]])
      "/root/item" ["name", "tag"] =
    Except.ok ⟨["name", "tag"],
      [[Cell.scalar (some ("Ann")), Cell.scalar (some ("x"))],
       [Cell.scalar (some ("Ann")), Cell.scalar (some ("y"))],
       [Cell.scalar (some ("Bob")), Cell.nan]]⟩ := rfl

/- ## JSON documents and the jsonpath fragment used by `_read_json` -/

/-- A parsed JSON document (`json.load`).  The hierarchical extraction
treats every leaf as text or null, matching the source (no type
coercion), so leaves are strings and nulls. -/
inductive JValue : Type where
  | null
  | str (s : String)
  | arr (xs : List JValue)
  | obj (fields : List (String × JValue))
deriving Repr

/-- One step of the modelled jsonpath iterator: a field access `.name`
or an array wildcard `[*]`. -/
inductive JStep : Type where
  | field (s : String)
  | anyElem
deriving DecidableEq, Repr

/-- Consume a maximal run of field-name characters. -/
def parseFieldChars : List Char → List Char × List Char
  | [] => ([], [])
  | c :: cs =>
    if validFieldChar c then
      let p := parseFieldChars cs
      (c :: p.1, p.2)
    else ([], c :: cs)

theorem parseFieldChars_snd_length_le (cs : List Char) :
    (parseFieldChars cs).2.length ≤ cs.length := by
  induction cs with
  | nil => simp [parseFieldChars]
  | cons c cs ih =>
    by_cases h : validFieldChar c = true
    · simp only [parseFieldChars, h, if_pos]
      exact Nat.le_succ_of_le ih
    · simp [parseFieldChars, h]

/-- Parse the steps of the modelled jsonpath iterator after the leading
`$`: a sequence of `.name` and `[*]` tokens.  The fuel argument (at
least the input length; every step consumes a character) keeps the
recursion structural so that concrete parses compute. -/
def parseJsonStepsF : Nat → List Char → Except FileError (List JStep)
  | _, [] => Except.ok []
  | 0, l => Except.error (FileError.invalidPathExpression (String.mk l))
  | fuel + 1, '.' :: rest =>
    let p := parseFieldChars rest
    if p.1.isEmpty then Except.error (FileError.invalidPathExpression (String.mk rest))
    else
      match parseJsonStepsF fuel p.2 with
      | Except.error e => Except.error e
      | Except.ok steps => Except.ok (JStep.field (String.mk p.1) :: steps)
  | fuel + 1, '[' :: '*' :: ']' :: rest =>
    match parseJsonStepsF fuel rest with
    | Except.error e => Except.error e
    | Except.ok steps => Except.ok (JStep.anyElem :: steps)
  | _ + 1, l => Except.error (FileError.invalidPathExpression (String.mk l))

def parseJsonSteps (cs : List Char) : Except FileError (List JStep) :=
  parseJsonStepsF cs.length cs

/-- Model of `JSONPath(expression)` compilation of the iterator part: a
`$` root followed by `.name` and `[*]` steps — the modelled fragment of
the jsonpath language, which `jsel` interprets.  Iterators outside the
fragment (indexed access, slices, filters) are not given semantics here
and are mapped to the path error; no theorem asserts that such a string
fails the real call. -/
def parseJsonIterator (s : String) : Except FileError (List JStep) :=
  match s.toList with
  | '$' :: rest => parseJsonSteps rest
  | _ => Except.error (FileError.invalidPathExpression s)

/-- Model of `reference.split('.')[0]`: the top-level segment of a reference. -/
def headOf (r : String) : String :=
  String.mk ((splitSegs '.' r.toList).headD [])

/-- A well-formed JSON reference: every dot-segment is a name token.
(The source only ever compiles the first segment; see `_read_json`.) -/
def validJsonRef (r : String) : Bool :=
  ((splitSegs '.' r.toList).map String.mk).all validFieldName

/-- Evaluate the modelled jsonpath steps against a document, in document
order. -/
def jsel : JValue → List JStep → List JValue
  | v, [] => [v]
  | v, JStep.field f :: ps =>
    match v with
    | JValue.obj fs => (fs.filter (fun kv => kv.1 = f)).flatMap (fun kv => jsel kv.2 ps)
    | _ => []
  | v, JStep.anyElem :: ps =>
    match v with
    | JValue.arr xs => xs.flatMap (fun x => jsel x ps)
    | _ => []

/-- The field-selection suffix `.(h1,...,hk)` that `_read_json` appends
to the iterator: on an object it keeps the requested top-level fields
that exist (a Python dict, so duplicates collapse); on a non-object it
matches nothing. -/
def selectFields (heads : List String) : JValue → Option JValue
  | JValue.obj fs =>
    some (JValue.obj ((firstDedup [] heads).filterMap
      (fun h => (fs.find? (fun kv => kv.1 == h)).map (fun kv => (h, kv.2)))))
  | _ => none

/-- Modelled from the spec: the repository's `normalize_hierarchical_data`
(imported from `..utils`, which is not under `src/`).  Per the spec's
RowNormalizer (section 4.3) it performs sequential cross-product
expansion of multi-valued fields: an object yields one combination per
choice of a normalized value for each field (`itertools.product` over
the field values, earlier fields outermost), a list yields each of its
normalized items in order, and a scalar yields itself. -/
def normalize_hierarchical_data : JValue → List JValue
  | JValue.null => [JValue.null]
  | JValue.str s => [JValue.str s]
  | JValue.arr xs => normList xs
  | JValue.obj fs => (normProd fs).map JValue.obj
where
  /-- Normalize each element of a list and concatenate, in order. -/
  normList : List JValue → List JValue
    | [] => []
    | x :: xs => normalize_hierarchical_data x ++ normList xs
  /-- All combinations of normalized field values, earlier fields
  outermost. -/
  normProd : List (String × JValue) → List (List (String × JValue))
    | [] => [[]]
    | (k, v) :: rest =>
      (normalize_hierarchical_data v).flatMap
        (fun nv => (normProd rest).map (fun tl => (k, nv) :: tl))

/-- Model of `None in json_object.values()`: whether a normalized record object
has an (explicit) null among its top-level values. -/
def hasTopNull : JValue → Bool
  | JValue.obj fs => fs.any (fun kv => match kv.2 with
      | JValue.null => true
      | _ => false)
  | _ => false

/-- Join a prefix and a key with a dot, as `pandas.json_normalize` names
nested columns. -/
def dotted (pfx k : String) : String :=
  if pfx = "" then k else pfx ++ "." ++ k

/-- A leaf value as a DataFrame cell. -/
def jleaf : JValue → Cell
  | JValue.null => Cell.scalar none
  | JValue.str s => Cell.scalar (some s)
  | JValue.arr xs => Cell.vlist (xs.map (fun x => match x with
      | JValue.str s => some s
      | _ => none))
  | JValue.obj _ => Cell.nan

/-- Model of `pandas.json_normalize` flattening of one record: nested objects
become dot-joined column names; leaves become cells, in field order. -/
def flattenAt (pfx : String) : JValue → List (String × Cell)
  | JValue.obj fs => flattenFields pfx fs
  | v => [(pfx, jleaf v)]
where
  flattenFields (pfx : String) : List (String × JValue) → List (String × Cell)
    | [] => []
    | (k, v) :: rest => flattenAt (dotted pfx k) v ++ flattenFields pfx rest

/-- Flatten one normalized record object into its column/cell pairs. -/
def flattenTop : JValue → List (String × Cell)
  | JValue.obj fs => flattenAt.flattenFields ("") fs
  | _ => []

/-- Stage `jsonpath_result` of `_read_json`: the records selected by the
iterator, each restricted to the requested top-level fields. -/
def jsonRecords (doc : JValue) (steps : List JStep) (heads : List String) : List JValue :=
  (jsel doc steps).filterMap (selectFields heads)

/-- The normalized records that survive the
`if None not in json_object.values()` filter of `_read_json`. -/
def jsonKept (doc : JValue) (steps : List JStep) (heads : List String) : List JValue :=
  (normalize_hierarchical_data.normList (jsonRecords doc steps heads)).filter
    (fun v => !(hasTopNull v))

/-- The surviving records flattened by `pd.json_normalize`. -/
def jsonFlats (doc : JValue) (steps : List JStep) (heads : List String) :
    List (List (String × Cell)) :=
  (jsonKept doc steps heads).map flattenTop

/-- The data-derived columns of `pd.json_normalize`, in first-appearance
order. -/
def jsonCols (doc : JValue) (steps : List JStep) (heads : List String) : List String :=
  firstDedup [] ((jsonFlats doc steps heads).flatMap (fun d => d.map Prod.fst))

/-- The rows of the normalized DataFrame: one per surviving record, one
cell per data-derived column (`NaN` where the record lacks the column). -/
def jsonRows (doc : JValue) (steps : List JStep) (heads : List String) : List (List Cell) :=
  (jsonFlats doc steps heads).map (fun d =>
    (jsonCols doc steps heads).map
      (fun c => (((d.find? (fun kv => kv.1 == c)).map Prod.snd).getD Cell.nan)))

/-- The requested references absent from the data-derived columns (the
source computes them as `list(set(references).difference(set(columns)))`;
Python's set order is unspecified, modelled in request order). -/
def jsonMissing (doc : JValue) (steps : List JStep) (heads : List String)
    (references : List String) : List String :=
  (firstDedup [] references).filter (fun r => !(decide (r ∈ jsonCols doc steps heads)))

/-- Compilation of one reference inside the jsonpath expression: only the
top-level segment `reference.split('.')[0]` ever reaches the compiler. -/
def compileHead (r : String) : Except FileError String :=
  if validFieldName (headOf r) then Except.ok (headOf r)
  else Except.error (FileError.invalidPathExpression r)

/-- Embedding of `_read_json` (data_file.py lines 126-144) on an already-parsed
document: compile the jsonpath expression
`iterator + '.(' + top-level segments of the references + ')'`
(with no references the expression ends in a dangling `.` and fails to
compile), select and field-restrict the records, cross-product-normalize
them, drop the records containing a null value, flatten the survivors
with `pd.json_normalize` (columns in first-appearance order), and append
a null column for every requested reference that did not appear.
(`list(set(...))` iteration order is not specified by Python; the
missing columns are modelled in request order.) -/
def read_json (doc : JValue) (iterator : String) (references : List String) :
    Except FileError DF :=
  match parseJsonIterator iterator with
  | Except.error e => Except.error e
  | Except.ok steps =>
    if references.isEmpty then
      Except.error (FileError.invalidPathExpression (iterator ++ ".("))
    else
      match mapME compileHead references with
      | Except.error e => Except.error e
      | Except.ok heads =>
        let rows := jsonRows doc steps heads
        let missing := jsonMissing doc steps heads references
        Except.ok ⟨jsonCols doc steps heads ++ missing,
          rows.map (fun row => row ++ missing.map (fun _ => Cell.nan))⟩

example :
    read_json
      (JValue.obj [("items", JValue.arr
        [JValue.obj [("name", JValue.str ("Ann")),
                     ("tag", JValue.arr [JValue.str ("x"), JValue.str ("y")])],
         JValue.obj [("name", JValue.str ("Bob"))]])])
      "$.items[*]" ["name", "tag"] =
    Except.ok ⟨["name", "tag"],
      [[Cell.scalar (some ("Ann")), Cell.scalar (some ("x"))],
       [Cell.scalar (some ("Ann")), Cell.scalar (some ("y"))],
       [Cell.scalar (some ("Bob")), Cell.nan]]⟩ := rfl

/- ## Flat-format sources and the dispatcher `get_file_data` -/

/-- A value in a flat-format table: text, a native (numeric) value, or a
null. -/
inductive PValue : Type where
  | pstr (s : String)
  | pnum (n : Int)
  | pnull
deriving DecidableEq, Repr

/-- A delimited text file: named columns of raw text cells. -/
structure CsvFile : Type where
  cols : List (String × List String)
deriving Repr

/-- A typed (binary) flat file: named columns of native values. -/
structure FlatFile : Type where
  cols : List (String × List PValue)
deriving Repr

/-- A flat table as returned by the flat-format readers. -/
structure PTable : Type where
  cols : List (String × List PValue)
deriving DecidableEq, Repr

def PTable.names (t : PTable) : List String := t.cols.map Prod.fst

/-- The source document behind `mapping_rule['data_source']`, already
loaded by the corresponding external parser. -/
inductive DataSource : Type where
  | csvSource (f : CsvFile)
  | flatSource (f : FlatFile)
  | jsonSource (doc : JValue)
  | xmlSource (doc : XElem)
deriving Repr

/-- The fields of `mapping_rule` that `get_file_data` and the readers
use. -/
structure MappingRule : Type where
  source_type : String
  iterator : String
  data_source : DataSource

/-- Modelled from the spec: the source-type constants of `..constants`
(the `constants` module is not under `src/`); distinct string tags for
the flat formats (CSV/TSV, spreadsheet, columnar, statistical-package)
and the hierarchical formats. -/
def CSV : String := "CSV"
def TSV : String := "TSV"
def EXCEL : List String := ["XLSX", "XLS"]
def ODS : List String := ["ODS"]
def PARQUET : String := "PARQUET"
def FEATHER : List String := ["FEATHER"]
def ORC : String := "ORC"
def STATA : String := "STATA"
def SAS : List String := ["SAS7BDAT", "SAS_XPORT"]
def SPSS : String := "SPSS"
def JSON : String := "JSON"
def XML : String := "XML"

/-- Model of `cudf.read_csv(..., usecols=references, dtype=str, keep_default_na=False,
na_filter=False)`: keep the requested columns (file order, as `usecols`
does), every cell the raw text, no null coercion.  A requested column
absent from the file is the library's error. -/
def _read_csv (rule : MappingRule) (references : List String) :
    Except FileError PTable :=
  match rule.data_source with
  | DataSource.csvSource f =>
    if references.all (fun r => decide (r ∈ f.cols.map Prod.fst)) then
      Except.ok ⟨(f.cols.filter (fun kc => decide (kc.1 ∈ references))).map
        (fun kc => (kc.1, kc.2.map PValue.pstr))⟩
    else Except.error (FileError.valueError ("Usecols do not match columns"))
  | _ => Except.error FileError.sourceUnreadable

/-- Model of `pd.read_excel(..., usecols=references, dtype=str, na_filter=False)`:
keep the requested columns (file order), cells stringified. -/
def _read_excel (rule : MappingRule) (references : List String) :
    Except FileError PTable :=
  match rule.data_source with
  | DataSource.flatSource f =>
    if references.all (fun r => decide (r ∈ f.cols.map Prod.fst)) then
      Except.ok ⟨(f.cols.filter (fun kc => decide (kc.1 ∈ references))).map
        (fun kc => (kc.1, kc.2.map (fun v => match v with
          | PValue.pstr s => PValue.pstr s
          | PValue.pnum n => PValue.pstr (toString n)
          | PValue.pnull => PValue.pstr ("nan"))))⟩
    else Except.error (FileError.valueError ("Usecols do not match columns"))
  | _ => Except.error FileError.sourceUnreadable

/-- Model of `pd.read_excel(..., engine='odf', ...)`: same shape as `_read_excel`. -/
def _read_ods (rule : MappingRule) (references : List String) :
    Except FileError PTable :=
  _read_excel rule references

/-- Select the requested columns of a typed file in requested order with
native values (the `columns=` keyword of the parquet/feather/orc/stata
readers). -/
def selectColumns (f : FlatFile) (references : List String) :
    Except FileError PTable :=
  if references.all (fun r => decide (r ∈ f.cols.map Prod.fst)) then
    Except.ok ⟨references.filterMap
      (fun r => (f.cols.find? (fun kc => kc.1 == r)).map (fun kc => (r, kc.2)))⟩
  else Except.error (FileError.valueError ("columns not found in the file"))

/-- Model of `cudf.read_parquet(..., columns=references)`: requested columns,
native values. -/
def _read_parquet (rule : MappingRule) (references : List String) :
    Except FileError PTable :=
  match rule.data_source with
  | DataSource.flatSource f => selectColumns f references
  | _ => Except.error FileError.sourceUnreadable

/-- Model of `cudf.read_feather(..., columns=references)`. -/
def _read_feather (rule : MappingRule) (references : List String) :
    Except FileError PTable :=
  match rule.data_source with
  | DataSource.flatSource f => selectColumns f references
  | _ => Except.error FileError.sourceUnreadable

/-- Model of `cudf.read_orc(..., columns=references)`. -/
def _read_orc (rule : MappingRule) (references : List String) :
    Except FileError PTable :=
  match rule.data_source with
  | DataSource.flatSource f => selectColumns f references
  | _ => Except.error FileError.sourceUnreadable

/-- Model of `pd.read_stata(..., columns=references, ...)`: requested columns,
native values (no date/categorical conversion). -/
def _read_stata (rule : MappingRule) (references : List String) :
    Except FileError PTable :=
  match rule.data_source with
  | DataSource.flatSource f => selectColumns f references
  | _ => Except.error FileError.sourceUnreadable

/-- Model of `pd.read_sas(str(...), encoding='utf-8')`: NOTE the source passes no
column selection and no dtype — the whole file comes back unchanged,
whatever `references` says. -/
def _read_sas (rule : MappingRule) (references : List String) :
    Except FileError PTable :=
  match rule.data_source with
  | DataSource.flatSource f => Except.ok ⟨f.cols⟩
  | _ => Except.error FileError.sourceUnreadable

/-- Model of `pd.read_spss(..., usecols=references, convert_categoricals=False)`:
requested columns (file order), native values. -/
def _read_spss (rule : MappingRule) (references : List String) :
    Except FileError PTable :=
  match rule.data_source with
  | DataSource.flatSource f =>
    if references.all (fun r => decide (r ∈ f.cols.map Prod.fst)) then
      Except.ok ⟨f.cols.filter (fun kc => decide (kc.1 ∈ references))⟩
    else Except.error (FileError.valueError ("usecols do not match columns"))
  | _ => Except.error FileError.sourceUnreadable

/-- Wrapper `_read_json` matching the source signature. -/
def _read_json (rule : MappingRule) (references : List String) :
    Except FileError DF :=
  match rule.data_source with
  | DataSource.jsonSource doc => read_json doc rule.iterator references
  | _ => Except.error FileError.sourceUnreadable

/-- Wrapper `_read_xml` matching the source signature. -/
def _read_xml (rule : MappingRule) (references : List String) :
    Except FileError DF :=
  match rule.data_source with
  | DataSource.xmlSource doc => read_xml doc rule.iterator references
  | _ => Except.error FileError.sourceUnreadable

/-- The two table shapes handed back by `get_file_data`. -/
inductive AnyTable : Type where
  | hier (df : DF)
  | flat (t : PTable)
deriving DecidableEq, Repr

/-- Embedding of `get_file_data` (data_file.py lines 22-49): dispatch on
`mapping_rule['source_type']`; an unrecognized source type raises
`ValueError(f'Found an invalid source type. Found value `...`.')`
without touching the data source. -/
def get_file_data (rule : MappingRule) (references : List String) :
    Except FileError AnyTable :=
  if rule.source_type = CSV ∨ rule.source_type = TSV then
    (_read_csv rule references).map AnyTable.flat
  else if rule.source_type ∈ EXCEL then
    (_read_excel rule references).map AnyTable.flat
  else if rule.source_type ∈ ODS then
    (_read_ods rule references).map AnyTable.flat
  else if rule.source_type = PARQUET then
    (_read_parquet rule references).map AnyTable.flat
  else if rule.source_type ∈ FEATHER then
    (_read_feather rule references).map AnyTable.flat
  else if rule.source_type = ORC then
    (_read_orc rule references).map AnyTable.flat
  else if rule.source_type = STATA then
    (_read_stata rule references).map AnyTable.flat
  else if rule.source_type ∈ SAS then
    (_read_sas rule references).map AnyTable.flat
  else if rule.source_type = SPSS then
    (_read_spss rule references).map AnyTable.flat
  else if rule.source_type = JSON then
    (_read_json rule references).map AnyTable.hier
  else if rule.source_type = XML then
    (_read_xml rule references).map AnyTable.hier
  else
    Except.error (FileError.valueError
      ("Found an invalid source type. Found value `" ++ rule.source_type ++ "`."))

/- ## The cross-product expansion, and its two descriptions -/

/-- The effect of `_read_xml`'s `for reference in references:
xml_df = xml_df.explode(reference)` on one record row, written as a
head-first cartesian product over the row's cells. -/
def expandCells : List Cell → List (List Cell)
  | [] => [[]]
  | c :: rest => (explodeCell c).flatMap (fun c0 => (expandCells rest).map (fun p => c0 :: p))

/-- Follows the spec's words (section 4.3 step 2), one reference of the
accumulator construction: a multi-value sequence of length `k`
replicates each accumulator row `k` times, the `i`-th replica receiving
the `i`-th value; `Absent` (zero matches) assigns null to every row
without multiplying. -/
def specRowStep (acc : List (List Cell)) (xs : List (Option String)) : List (List Cell) :=
  acc.flatMap (fun row =>
    match xs with
    | [] => [row ++ [Cell.nan]]
    | ys => ys.map (fun y => row ++ [Cell.scalar y]))

/-- Follows the spec's words (section 4.3 step 2): start from one empty
accumulator row and fold the extracted values of the references left to
right. -/
def specNormalize (vals : List (List (Option String))) : List (List Cell) :=
  vals.foldl specRowStep [[]]

/-- The extracted values of one XML record: for each parsed reference,
the texts of the matching elements. -/
def xmlExtracted (rsegs : List (List String)) (e : XElem) : List (List (Option String)) :=
  rsegs.map (fun segs => (findallSegs e segs).map XElem.text)

/- ## Lemmas: small helpers -/

theorem mem_firstDedup {α : Type} [DecidableEq α] (l : List α) :
    ∀ (seen : List α) (x : α), x ∈ firstDedup seen l ↔ x ∈ l ∧ x ∉ seen := by
  induction l with
  | nil => intro seen x; simp [firstDedup]
  | cons y ys ih =>
    intro seen x
    by_cases hy : y ∈ seen
    · rw [firstDedup, if_pos hy, ih]
      constructor
      · rintro ⟨hx, hs⟩
        exact ⟨List.mem_cons_of_mem _ hx, hs⟩
      · rintro ⟨hx, hs⟩
        rcases List.mem_cons.mp hx with rfl | hx
        · exact absurd hy hs
        · exact ⟨hx, hs⟩
    · rw [firstDedup, if_neg hy]
      constructor
      · intro hx
        rcases List.mem_cons.mp hx with rfl | hx
        · exact ⟨List.mem_cons_self _ _, hy⟩
        · rcases (ih (y :: seen) x).mp hx with ⟨hxy, hs⟩
          exact ⟨List.mem_cons_of_mem _ hxy,
                 fun hc => hs (List.mem_cons_of_mem _ hc)⟩
      · rintro ⟨hx, hs⟩
        rcases List.mem_cons.mp hx with rfl | hx
        · exact List.mem_cons_self _ _
        · by_cases hxy : x = y
          · subst hxy; exact List.mem_cons_self _ _
          · refine List.mem_cons_of_mem _ ((ih (y :: seen) x).mpr ⟨hx, fun hc => ?_⟩)
            rcases List.mem_cons.mp hc with h | h
            · exact hxy h
            · exact hs h

theorem filter_not_mem_firstDedup {α : Type} [DecidableEq α] (l : List α) :
    (firstDedup [] l).filter (fun r => !(decide (r ∈ l))) = [] := by
  apply List.filter_eq_nil_iff.mpr
  intro a ha
  have : a ∈ l := ((mem_firstDedup l [] a).mp ha).1
  simp [this]

theorem mapME_ok_length {α β : Type} (f : α → Except FileError β) :
    ∀ (l : List α) (out : List β), mapME f l = Except.ok out → out.length = l.length := by
  intro l
  induction l with
  | nil => intro out h; simp only [mapME] at h; cases h; rfl
  | cons x xs ih =>
    intro out h
    simp only [mapME] at h
    cases hf : f x with
    | error e => rw [hf] at h; cases h
    | ok y =>
      rw [hf] at h
      cases hm : mapME f xs with
      | error e => rw [hm] at h; cases h
      | ok ys =>
        rw [hm] at h
        cases h
        simp [ih ys hm]

theorem mapME_ok_of_forall {α β : Type} (f : α → Except FileError β) (g : α → β) :
    ∀ (l : List α), (∀ x ∈ l, f x = Except.ok (g x)) → mapME f l = Except.ok (l.map g) := by
  intro l
  induction l with
  | nil => intro _; rfl
  | cons x xs ih =>
    intro h
    simp only [mapME, h x (List.mem_cons_self _ _), ih (fun y hy => h y (List.mem_cons_of_mem _ hy)),
      List.map]

theorem exceptMap_ok {α β : Type} (g : α → β) (y : α) :
    (Except.ok y : Except FileError α).map g = Except.ok (g y) := rfl

theorem mapME_map_of_ok {α β γ : Type} (f : α → Except FileError β) (g : β → γ) :
    ∀ (l : List α) (out : List β), mapME f l = Except.ok out →
      mapME (fun a => (f a).map g) l = Except.ok (out.map g) := by
  intro l
  induction l with
  | nil => intro out h; simp only [mapME] at h; cases h; rfl
  | cons x xs ih =>
    intro out h
    simp only [mapME] at h
    cases hf : f x with
    | error e => rw [hf] at h; cases h
    | ok y =>
      rw [hf] at h
      cases hm : mapME f xs with
      | error e => rw [hm] at h; cases h
      | ok ys =>
        rw [hm] at h
        cases h
        simp only [mapME, hf, exceptMap_ok, ih ys hm, List.map_cons]

theorem mapME_ok_getElem {α β : Type} (f : α → Except FileError β) :
    ∀ (l : List α) (out : List β), mapME f l = Except.ok out →
      ∀ (i : Nat) (hi : i < l.length) (ho : i < out.length),
        f (l.get ⟨i, hi⟩) = Except.ok (out.get ⟨i, ho⟩) := by
  intro l
  induction l with
  | nil => intro out _ i hi; exact absurd hi (by simp)
  | cons x xs ih =>
    intro out h i hi ho
    simp only [mapME] at h
    cases hf : f x with
    | error e => rw [hf] at h; cases h
    | ok y =>
      rw [hf] at h
      cases hm : mapME f xs with
      | error e => rw [hm] at h; cases h
      | ok ys =>
        rw [hm] at h
        cases h
        match i with
        | 0 => exact hf
        | Nat.succ j => exact ih ys hm j (Nat.lt_of_succ_lt_succ hi) (Nat.lt_of_succ_lt_succ ho)

/- ## Lemmas: the cross-product expansion -/

theorem explodeCell_length_pos (c : Cell) : 0 < (explodeCell c).length := by
  cases c with
  | vlist xs => cases xs <;> simp [explodeCell]
  | scalar x => simp [explodeCell]
  | nan => simp [explodeCell]

theorem explodeCell_vlist_length (xs : List (Option String)) (h : xs ≠ []) :
    (explodeCell (Cell.vlist xs)).length = xs.length := by
  cases xs with
  | nil => exact absurd rfl h
  | cons y ys => simp [explodeCell]

theorem length_expandCells (cs : List Cell) :
    (expandCells cs).length = (cs.map (fun c => (explodeCell c).length)).prod := by
  induction cs with
  | nil => simp [expandCells]
  | cons c rest ih =>
    simp only [expandCells, List.length_flatMap, Function.comp_def, List.length_map,
      List.map_cons, List.prod_cons, ← ih]
    have : (explodeCell c).map (fun _ => (expandCells rest).length) =
        List.replicate (explodeCell c).length (expandCells rest).length :=
      List.map_const' _ _
    rw [this, List.sum_replicate, smul_eq_mul]

theorem length_of_mem_expandCells :
    ∀ (cs : List Cell) (p : List Cell), p ∈ expandCells cs → p.length = cs.length := by
  intro cs
  induction cs with
  | nil =>
    intro p hp
    simp only [expandCells, List.mem_singleton] at hp
    simp [hp]
  | cons c rest ih =>
    intro p hp
    simp only [expandCells, List.mem_flatMap, List.mem_map] at hp
    obtain ⟨c0, _, q, hq, rfl⟩ := hp
    simp [ih q hq]

theorem getD_of_mem_expandCells :
    ∀ (cs : List Cell) (p : List Cell), p ∈ expandCells cs →
      ∀ j, j < cs.length → p.getD j Cell.nan ∈ explodeCell (cs.getD j Cell.nan) := by
  intro cs
  induction cs with
  | nil => intro p _ j hj; simp at hj
  | cons c rest ih =>
    intro p hp j hj
    simp only [expandCells, List.mem_flatMap, List.mem_map] at hp
    obtain ⟨c0, hc0, q, hq, rfl⟩ := hp
    match j with
    | 0 => simpa [List.getD_cons_zero] using hc0
    | Nat.succ i =>
      simpa [List.getD_cons_succ] using ih q hq i (Nat.lt_of_succ_lt_succ hj)

theorem specRowStep_eq (acc : List (List Cell)) (xs : List (Option String)) :
    specRowStep acc xs =
      acc.flatMap (fun row => (explodeCell (Cell.vlist xs)).map (fun c => row ++ [c])) := by
  cases xs <;> simp [specRowStep, explodeCell, List.map_map, Function.comp_def]

theorem specFold_eq (vals : List (List (Option String))) :
    ∀ acc, vals.foldl specRowStep acc =
      acc.flatMap (fun row => (expandCells (vals.map Cell.vlist)).map (fun p => row ++ p)) := by
  induction vals with
  | nil =>
    intro acc
    simp [expandCells]
  | cons xs rest ih =>
    intro acc
    simp only [List.foldl_cons, ih, specRowStep_eq, List.map_cons, expandCells]
    simp [List.flatMap_assoc, List.flatMap_map, List.map_flatMap, List.map_map,
      Function.comp_def, List.append_assoc, List.singleton_append]

/-- The spec's accumulator construction computes exactly the head-first
cartesian product of the per-reference value lists. -/
theorem specNormalize_eq_expandCells (vals : List (List (Option String))) :
    specNormalize vals = expandCells (vals.map Cell.vlist) := by
  simp [specNormalize, specFold_eq vals [[]]]

theorem flatMap_congr_mem {α β : Type} (l : List α) {f g : α → List β}
    (h : ∀ a ∈ l, f a = g a) : l.flatMap f = l.flatMap g := by
  induction l with
  | nil => rfl
  | cons x xs ih =>
    simp only [List.flatMap_cons, h x (List.mem_cons_self _ _)]
    rw [ih (fun a ha => h a (List.mem_cons_of_mem _ ha))]

/-- Exploding the `k`-th column of a row and then cross-expanding the
columns after it is the same as cross-expanding all columns from `k` on. -/
theorem explode_set_pointwise :
    ∀ (k : Nat) (row : List Cell), k < row.length →
      (explodeCell (row.getD k Cell.nan)).flatMap
        (fun c => (expandCells ((row.set k c).drop (k+1))).map
          (fun p => (row.set k c).take (k+1) ++ p)) =
      (expandCells (row.drop k)).map (fun p => row.take k ++ p) := by
  intro k
  induction k with
  | zero =>
    intro row hlt
    cases row with
    | nil => simp at hlt
    | cons r rest =>
      simp [expandCells, List.map_map, Function.comp_def, List.singleton_append]
  | succ k ih =>
    intro row hlt
    cases row with
    | nil => simp at hlt
    | cons r rest =>
      have hlt' : k < rest.length := by simpa using hlt
      have hrec := ih rest hlt'
      simp only [List.getD_cons_succ, List.set_cons_succ, List.drop_succ_cons,
        List.take_succ_cons, List.cons_append]
      have lhs_eq :
          (explodeCell (rest.getD k Cell.nan)).flatMap
            (fun c => (expandCells ((rest.set k c).drop (k+1))).map
              (fun p => r :: ((rest.set k c).take (k+1) ++ p))) =
          ((explodeCell (rest.getD k Cell.nan)).flatMap
            (fun c => (expandCells ((rest.set k c).drop (k+1))).map
              (fun p => (rest.set k c).take (k+1) ++ p))).map (fun q => r :: q) := by
        simp [List.map_flatMap, List.map_map, Function.comp_def]
      rw [lhs_eq, hrec]
      simp [List.map_map, Function.comp_def]

/-- Expanding from a column index past the row's end changes nothing. -/
theorem flatMap_expand_full (k n : Nat) (hk : n ≤ k) :
    ∀ rows : List (List Cell), (∀ r ∈ rows, r.length = n) →
      rows.flatMap (fun row => (expandCells (row.drop k)).map (fun p => row.take k ++ p)) =
        rows := by
  intro rows
  induction rows with
  | nil => intro _; rfl
  | cons r rs ihr =>
    intro hlen
    have hr : r.length = n := hlen r (List.mem_cons_self _ _)
    have hdrop : r.drop k = [] := List.drop_eq_nil_of_le (by omega)
    have htake : r.take k = r := List.take_of_length_le (by omega)
    simp only [List.flatMap_cons, hdrop, htake, expandCells, List.map_cons,
      List.map_nil, List.append_nil]
    rw [ihr (fun x hx => hlen x (List.mem_cons_of_mem _ hx))]
    rfl

/-- Folding `DataFrame.explode` over the column positions `k, k+1, ...`
cross-expands every column from `k` on, row by row, preserving row
blocks in order. -/
theorem foldl_explodeAt_range' :
    ∀ (j k n : Nat) (rows : List (List Cell)), k + j = n → (∀ r ∈ rows, r.length = n) →
      (List.range' k j).foldl (fun rs i => explodeAtRows i rs) rows =
        rows.flatMap (fun row => (expandCells (row.drop k)).map (fun p => row.take k ++ p)) := by
  intro j
  induction j with
  | zero =>
    intro k n rows hk hlen
    simp only [List.range', List.foldl_nil]
    exact (flatMap_expand_full k n (by omega) rows hlen).symm
  | succ j ih =>
    intro k n rows hk hlen
    have hkn : k < n := by omega
    rw [List.range'_succ, List.foldl_cons]
    have hlen' : ∀ r' ∈ explodeAtRows k rows, r'.length = n := by
      intro r' hr'
      simp only [explodeAtRows, List.mem_flatMap, List.mem_map] at hr'
      obtain ⟨row, hrow, c, _, rfl⟩ := hr'
      simp [List.length_set, hlen row hrow]
    rw [ih (k+1) n (explodeAtRows k rows) (by omega) hlen']
    simp only [explodeAtRows, List.flatMap_assoc]
    apply flatMap_congr_mem
    intro row hrow
    rw [List.flatMap_map]
    exact explode_set_pointwise k row (by rw [hlen row hrow]; exact hkn)

/- ## Lemmas: the `_read_xml` pipeline -/

theorem foldl_explode_columns (names : List String) :
    ∀ df : DF, (names.foldl DF.explode df).columns = df.columns := by
  induction names with
  | nil => intro df; rfl
  | cons nm rest ih => intro df; rw [List.foldl_cons]; exact ih _

theorem foldl_explode_eq_idx (names : List String) :
    ∀ df : DF, names.foldl DF.explode df =
      ⟨df.columns, (names.map (fun nm => df.columns.indexOf nm)).foldl
        (fun rs i => explodeAtRows i rs) df.rows⟩ := by
  induction names with
  | nil => intro df; rfl
  | cons nm rest ih =>
    intro df
    rw [List.foldl_cons, ih]
    rfl

theorem map_indexOf_self (refs : List String) (h : refs.Nodup) :
    refs.map (fun nm => refs.indexOf nm) = List.range refs.length := by
  apply List.ext_getElem
  · simp
  · intro i h1 h2
    simp only [List.getElem_map, List.getElem_range]
    exact List.indexOf_getElem h i (by simpa using h1)

theorem xmlRecordCells_not_null (rsegs : List (List String)) (e : XElem) :
    ((xmlRecordCells rsegs e).any Cell.isNull) = false := by
  rw [List.any_eq_false]
  intro c hc
  simp only [xmlRecordCells, List.mem_map] at hc
  obtain ⟨segs, _, rfl⟩ := hc
  simp [Cell.isNull]

theorem filter_not_null_xml (recs : List XElem) (rsegs : List (List String)) :
    (recs.map (xmlRecordCells rsegs)).filter (fun row => !(row.any Cell.isNull)) =
      recs.map (xmlRecordCells rsegs) := by
  apply List.filter_eq_self.mpr
  intro row hrow
  simp only [List.mem_map] at hrow
  obtain ⟨e, _, rfl⟩ := hrow
  simp [xmlRecordCells_not_null]

theorem hasDupColumn_eq_false (l : List String) :
    hasDupColumn l = false ↔ l.Nodup := by
  induction l with
  | nil => simp [hasDupColumn]
  | cons c cs ih =>
    simp [hasDupColumn, Bool.or_eq_false_iff, decide_eq_false_iff_not,
      List.nodup_cons, ih]

/-- Characterization of a successful `_read_xml` call: the table's
columns are the references and its rows are, record by record in
document order, the cross-product expansion of the record's extracted
values. -/
theorem read_xml_ok (doc : XElem) (iterator : String) (references : List String)
    (isegs : List String) (rsegs : List (List String))
    (hit : parseIterPath iterator = Except.ok isegs)
    (href : mapME parseRef references = Except.ok rsegs)
    (hnd : references.Nodup) :
    read_xml doc iterator references =
      Except.ok ⟨references,
        (iterSelect doc isegs).flatMap (fun e => expandCells (xmlRecordCells rsegs e))⟩ := by
  have hcells : mapME (fun e => mapME (fun r => (parseRef r).map
      (fun segs => Cell.vlist ((findallSegs e segs).map XElem.text))) references)
      (iterSelect doc isegs) =
    Except.ok ((iterSelect doc isegs).map (fun e => xmlRecordCells rsegs e)) := by
    apply mapME_ok_of_forall
    intro e _
    exact mapME_map_of_ok parseRef
      (fun segs => Cell.vlist ((findallSegs e segs).map XElem.text)) references rsegs href
  have hlenr : rsegs.length = references.length := mapME_ok_length parseRef references rsegs href
  have hdup : hasDupColumn references = false :=
    (hasDupColumn_eq_false references).mpr hnd
  simp only [read_xml, hit, hcells, hdup, Bool.false_eq_true, if_false]
  rw [filter_not_mem_firstDedup]
  simp only [DF.addNanCols, List.map_nil, List.append_nil, DF.dropnaAny, List.map_id']
  rw [filter_not_null_xml]
  rw [foldl_explode_eq_idx]
  simp only []
  rw [map_indexOf_self references hnd, List.range_eq_range']
  rw [foldl_explodeAt_range' references.length 0 references.length _ (by omega) ?hlen]
  case hlen =>
    intro r hr
    simp only [List.mem_map] at hr
    obtain ⟨e, _, rfl⟩ := hr
    simp [xmlRecordCells, hlenr]
  simp [List.flatMap_map]

/- ## Lemmas: the `_read_json` pipeline -/

/-- Characterization of a successful `_read_json` call. -/
theorem read_json_ok (doc : JValue) (iterator : String) (references : List String)
    (steps : List JStep) (heads : List String)
    (hit : parseJsonIterator iterator = Except.ok steps)
    (hne : references.isEmpty = false)
    (hh : mapME compileHead references = Except.ok heads) :
    read_json doc iterator references =
      Except.ok ⟨jsonCols doc steps heads ++ jsonMissing doc steps heads references,
        (jsonRows doc steps heads).map
          (fun row => row ++ (jsonMissing doc steps heads references).map
            (fun _ => Cell.nan))⟩ := by
  simp only [read_json, hit, hne, hh, Bool.false_eq_true, if_false]

theorem read_xml_columns (doc : XElem) (iterator : String) (references : List String)
    (df : DF) (h : read_xml doc iterator references = Except.ok df) :
    df.columns = references := by
  cases hit : parseIterPath iterator with
  | error e => simp only [read_xml, hit] at h; cases h
  | ok isegs =>
    cases hm : mapME (fun e => mapME (fun r => (parseRef r).map
        (fun segs => Cell.vlist ((findallSegs e segs).map XElem.text))) references)
        (iterSelect doc isegs) with
    | error e => simp only [read_xml, hit, hm] at h; cases h
    | ok cells =>
      cases hdup : hasDupColumn references with
      | true => simp [read_xml, hit, hm, hdup] at h
      | false =>
        simp only [read_xml, hit, hm, hdup, Bool.false_eq_true, if_false,
          Except.ok.injEq] at h
        subst h
        rw [foldl_explode_columns]
        simp [DF.dropnaAny, DF.addNanCols, filter_not_mem_firstDedup]

theorem read_json_columns (doc : JValue) (iterator : String) (references : List String)
    (df : DF) (h : read_json doc iterator references = Except.ok df) :
    ∀ r ∈ references, r ∈ df.columns := by
  cases hit : parseJsonIterator iterator with
  | error e => simp only [read_json, hit] at h; cases h
  | ok steps =>
    cases hne : references.isEmpty with
    | true => simp only [read_json, hit, hne, if_true] at h; cases h
    | false =>
      cases hh : mapME compileHead references with
      | error e => simp only [read_json, hit, hne, Bool.false_eq_true, if_false, hh] at h; cases h
      | ok heads =>
        simp only [read_json, hit, hne, Bool.false_eq_true, if_false, hh,
          Except.ok.injEq] at h
        subst h
        intro r hr
        simp only [List.mem_append]
        by_cases hc : r ∈ jsonCols doc steps heads
        · exact Or.inl hc
        · refine Or.inr ?_
          unfold jsonMissing
          rw [List.mem_filter]
          refine ⟨(mem_firstDedup references [] r).mpr ⟨hr, by simp⟩, by simp [hc]⟩

/- ## Lemmas: empty selections, errors, row counts -/

theorem mapME_ok_forall_mem {α β : Type} (f : α → Except FileError β) :
    ∀ (l : List α) (out : List β), mapME f l = Except.ok out →
      ∀ x ∈ l, ∃ y, f x = Except.ok y := by
  intro l
  induction l with
  | nil => intro out _ x hx; exact absurd hx (by simp)
  | cons z zs ih =>
    intro out h x hx
    simp only [mapME] at h
    cases hf : f z with
    | error e => rw [hf] at h; cases h
    | ok y =>
      rw [hf] at h
      cases hm : mapME f zs with
      | error e => rw [hm] at h; cases h
      | ok ys =>
        rcases List.mem_cons.mp hx with rfl | hx
        · exact ⟨y, hf⟩
        · exact ih ys hm x hx

theorem foldl_explode_rows_nil (names : List String) :
    ∀ df : DF, df.rows = [] → names.foldl DF.explode df = ⟨df.columns, []⟩ := by
  induction names with
  | nil => intro df h; cases df; simp_all
  | cons nm rest ih =>
    intro df h
    rw [List.foldl_cons]
    have hr : (df.explode nm).rows = [] := by simp [DF.explode, explodeAtRows, h]
    rw [ih _ hr]
    rfl

/-- A zero-match iterator path yields the empty table with the requested
columns, with no error (the references are never even compiled by
`findall`, since the record loop body never runs). -/
theorem read_xml_empty (doc : XElem) (iterator : String) (references : List String)
    (isegs : List String) (hit : parseIterPath iterator = Except.ok isegs)
    (hsel : iterSelect doc isegs = []) (hnd : references.Nodup) :
    read_xml doc iterator references = Except.ok ⟨references, []⟩ := by
  have hdup : hasDupColumn references = false :=
    (hasDupColumn_eq_false references).mpr hnd
  simp only [read_xml, hit, hsel, mapME, hdup, Bool.false_eq_true, if_false]
  rw [filter_not_mem_firstDedup]
  simp only [DF.addNanCols, DF.dropnaAny, List.map_nil, List.append_nil, List.filter_nil]
  rw [foldl_explode_rows_nil references ⟨references, []⟩ rfl]

theorem read_json_empty (doc : JValue) (iterator : String) (references : List String)
    (steps : List JStep) (heads : List String)
    (hit : parseJsonIterator iterator = Except.ok steps)
    (hne : references.isEmpty = false)
    (hh : mapME compileHead references = Except.ok heads)
    (hsel : jsel doc steps = []) :
    read_json doc iterator references = Except.ok ⟨firstDedup [] references, []⟩ := by
  rw [read_json_ok doc iterator references steps heads hit hne hh]
  have h1 : jsonFlats doc steps heads = [] := by
    simp [jsonFlats, jsonKept, jsonRecords, hsel, normalize_hierarchical_data.normList]
  have h2 : jsonCols doc steps heads = [] := by simp [jsonCols, h1, firstDedup]
  have h3 : jsonRows doc steps heads = [] := by simp [jsonRows, h1]
  have h4 : jsonMissing doc steps heads references = firstDedup [] references := by
    simp [jsonMissing, h2, List.filter_true]
  simp [h2, h3, h4]

/-- After the jsonpath expression compiles, the JSON reader returns a
table: nothing later in the pipeline can fail.  The records selected by
the iterator are assumed object-shaped (as the source expects: each
`json_object` must support `.values()`). -/
theorem read_json_ok_after_compile (doc : JValue) (iterator : String)
    (references : List String) (steps : List JStep) (heads : List String)
    (hit : parseJsonIterator iterator = Except.ok steps)
    (hne : references.isEmpty = false)
    (hh : mapME compileHead references = Except.ok heads)
    (_hobj : ∀ v ∈ jsel doc steps, ∃ fs, v = JValue.obj fs) :
    ∃ df, read_json doc iterator references = Except.ok df :=
  ⟨_, read_json_ok doc iterator references steps heads hit hne hh⟩

theorem one_le_length_expandCells (cs : List Cell) : 1 ≤ (expandCells cs).length := by
  rw [length_expandCells]
  apply List.one_le_prod_of_one_le
  intro x hx
  simp only [List.mem_map] at hx
  obtain ⟨c, _, rfl⟩ := hx
  exact explodeCell_length_pos c

/-- Row count of one record's expansion when every reference resolves
(cardinality at least one): the product of the cardinalities. -/
theorem expandCells_record_length (rsegs : List (List String)) (e : XElem)
    (hcard : ∀ segs ∈ rsegs, findallSegs e segs ≠ []) :
    (expandCells (xmlRecordCells rsegs e)).length =
      (rsegs.map (fun segs => (findallSegs e segs).length)).prod := by
  rw [length_expandCells]
  unfold xmlRecordCells
  rw [List.map_map]
  congr 1
  apply List.map_congr_left
  intro segs hsegs
  simp only [Function.comp_apply]
  rw [explodeCell_vlist_length]
  · simp
  · simp [hcard segs hsegs]

/- ## Lemmas: null columns and record counts -/

/-- Every row of the table is null at every column position named `R`. -/
def DF.nullAtNamed (df : DF) (R : String) : Prop :=
  ∀ row ∈ df.rows, ∀ j, j < df.columns.length → df.columns.getD j ("") = R →
    (row.getD j Cell.nan).isNull = true

theorem getD_map_nan (l : List String) :
    ∀ i, (l.map (fun _ => Cell.nan)).getD i Cell.nan = Cell.nan := by
  induction l with
  | nil => intro i; simp [List.getD]
  | cons x xs ih =>
    intro i
    cases i with
    | zero => rfl
    | succ n => simp [List.getD_cons_succ, ih n]

/-- XML: a reference that matches nothing in any selected record yields
a null in its column on every output row. -/
theorem read_xml_null_column (doc : XElem) (iterator : String) (references : List String)
    (isegs : List String) (rsegs : List (List String)) (R : String)
    (Rsegs : List String) (df : DF)
    (hit : parseIterPath iterator = Except.ok isegs)
    (href : mapME parseRef references = Except.ok rsegs)
    (hnd : references.Nodup)
    (hR : parseRef R = Except.ok Rsegs)
    (habs : ∀ e ∈ iterSelect doc isegs, findallSegs e Rsegs = [])
    (h : read_xml doc iterator references = Except.ok df) :
    df.nullAtNamed R := by
  rw [read_xml_ok doc iterator references isegs rsegs hit href hnd] at h
  have hdf := (Except.ok.injEq _ _).mp h
  subst hdf
  intro row hrow j hj hcol
  simp only [List.mem_flatMap] at hrow
  obtain ⟨e, he, hrowe⟩ := hrow
  have hlenr : rsegs.length = references.length := mapME_ok_length _ _ _ href
  have hjref : j < references.length := hj
  have hjr : j < rsegs.length := by omega
  have hcells : j < (xmlRecordCells rsegs e).length := by simp [xmlRecordCells]; omega
  have hgd := getD_of_mem_expandCells _ row hrowe j hcells
  have hrefj : references.get ⟨j, hjref⟩ = R := by
    rw [← hcol]
    exact (List.getD_eq_getElem references ("") hjref).symm
  have hpj := mapME_ok_getElem parseRef references rsegs href j hjref (by omega)
  rw [hrefj, hR] at hpj
  have hseg : rsegs.get ⟨j, by omega⟩ = Rsegs := ((Except.ok.injEq _ _).mp hpj).symm
  have hcell : (xmlRecordCells rsegs e).getD j Cell.nan = Cell.vlist [] := by
    rw [List.getD_eq_getElem _ _ hcells]
    simp only [xmlRecordCells, List.getElem_map]
    rw [show rsegs[j] = rsegs.get ⟨j, by omega⟩ from rfl, hseg, habs e he]
    rfl
  rw [hcell] at hgd
  simp only [explodeCell, List.mem_singleton] at hgd
  rw [hgd]
  rfl

/-- JSON: a reference that appears in no flattened record is filled as an
all-null column. -/
theorem read_json_null_column (doc : JValue) (iterator : String) (references : List String)
    (steps : List JStep) (heads : List String) (R : String) (df : DF)
    (hit : parseJsonIterator iterator = Except.ok steps)
    (hne : references.isEmpty = false)
    (hh : mapME compileHead references = Except.ok heads)
    (habs : R ∉ jsonCols doc steps heads)
    (h : read_json doc iterator references = Except.ok df) :
    df.nullAtNamed R := by
  rw [read_json_ok doc iterator references steps heads hit hne hh] at h
  have hdf := (Except.ok.injEq _ _).mp h
  subst hdf
  intro row hrow j hj hcol
  simp only [List.mem_map] at hrow
  obtain ⟨base, hbase, rfl⟩ := hrow
  have hbl : base.length = (jsonCols doc steps heads).length := by
    simp only [jsonRows, List.mem_map] at hbase
    obtain ⟨d, _, rfl⟩ := hbase
    simp
  by_cases hjc : j < (jsonCols doc steps heads).length
  · exfalso
    apply habs
    have hco : (jsonCols doc steps heads ++ jsonMissing doc steps heads references).getD j ("") =
        (jsonCols doc steps heads).getD j ("") := List.getD_append _ _ _ _ hjc
    rw [hco] at hcol
    rw [← hcol, List.getD_eq_getElem _ _ hjc]
    exact List.getElem_mem hjc
  · have hge : base.length ≤ j := by omega
    rw [List.getD_append_right _ _ _ _ hge, getD_map_nan]
    rfl

/-- JSON: the number of output rows is the number of records surviving
the null filter. -/
theorem read_json_rows_length (doc : JValue) (iterator : String) (references : List String)
    (steps : List JStep) (heads : List String) (df : DF)
    (hit : parseJsonIterator iterator = Except.ok steps)
    (hne : references.isEmpty = false)
    (hh : mapME compileHead references = Except.ok heads)
    (h : read_json doc iterator references = Except.ok df) :
    df.rows.length = (jsonKept doc steps heads).length := by
  rw [read_json_ok doc iterator references steps heads hit hne hh] at h
  have hdf := (Except.ok.injEq _ _).mp h
  subst hdf
  simp [jsonRows, jsonFlats]

/-- XML: no record is ever dropped — each selected record contributes at
least one output row. -/
theorem read_xml_no_record_dropped (doc : XElem) (iterator : String)
    (references : List String) (isegs : List String) (rsegs : List (List String)) (df : DF)
    (hit : parseIterPath iterator = Except.ok isegs)
    (href : mapME parseRef references = Except.ok rsegs)
    (hnd : references.Nodup)
    (h : read_xml doc iterator references = Except.ok df) :
    (iterSelect doc isegs).length ≤ df.rows.length := by
  rw [read_xml_ok doc iterator references isegs rsegs hit href hnd] at h
  have hdf := (Except.ok.injEq _ _).mp h
  subst hdf
  simp only [List.length_flatMap]
  calc (iterSelect doc isegs).length
      = ((iterSelect doc isegs).map
          (List.length ∘ fun e => expandCells (xmlRecordCells rsegs e))).length := by
        rw [List.length_map]
    _ ≤ _ := List.length_le_sum_of_one_le _ (by
        intro i hi
        simp only [List.mem_map, Function.comp_apply] at hi
        obtain ⟨e, _, rfl⟩ := hi
        exact one_le_length_expandCells _)

/- ## Decidable equality for `Except` results -/

instance exceptDecEq {ε α : Type} [DecidableEq ε] [DecidableEq α] :
    DecidableEq (Except ε α) := fun a b =>
  match a, b with
  | Except.error e1, Except.error e2 =>
    if h : e1 = e2 then Decidable.isTrue (by rw [h])
    else Decidable.isFalse (by intro hc; cases hc; exact h rfl)
  | Except.error _, Except.ok _ => Decidable.isFalse (by intro hc; cases hc)
  | Except.ok _, Except.error _ => Decidable.isFalse (by intro hc; cases hc)
  | Except.ok v1, Except.ok v2 =>
    if h : v1 = v2 then Decidable.isTrue (by rw [h])
    else Decidable.isFalse (by intro hc; cases hc; exact h rfl)

/- ## Sample documents (the spec's concrete scenario) -/

/-- Record A of the spec's scenario: `name="Ann"`, `tag=["x","y"]`. -/
def itemA : XElem := XElem.mk ("item") none
  [XElem.mk ("name") (some ("Ann")) [],
   XElem.mk ("tag") (some ("x")) [],
   XElem.mk ("tag") (some ("y")) []]

/-- Record B of the spec's scenario: `name="Bob"`, `tag` absent. -/
def itemB : XElem := XElem.mk ("item") none [XElem.mk ("name") (some ("Bob")) []]

def sampleXml : XElem := XElem.mk ("root") none [itemA, itemB]

def sampleJson : JValue := JValue.obj [("items", JValue.arr
  [JValue.obj [("name", JValue.str ("Ann")),
               ("tag", JValue.arr [JValue.str ("x"), JValue.str ("y")])],
   JValue.obj [("name", JValue.str ("Bob"))]])]

/- ## Lemmas: flat-format readers -/

theorem find?_of_mem_names (f : FlatFile) (r : String)
    (hr : r ∈ f.cols.map Prod.fst) :
    ∃ kc, f.cols.find? (fun kc => kc.1 == r) = some kc := by
  rw [← Option.isSome_iff_exists]
  rw [List.find?_isSome]
  simp only [List.mem_map] at hr
  obtain ⟨kc, hkc, hfst⟩ := hr
  exact ⟨kc, hkc, by simp [hfst]⟩

theorem filterMap_select_names (f : FlatFile) :
    ∀ refs : List String, (∀ r ∈ refs, r ∈ f.cols.map Prod.fst) →
      ((refs.filterMap (fun r => (f.cols.find? (fun kc => kc.1 == r)).map
        (fun kc => (r, kc.2)))).map Prod.fst) = refs := by
  intro refs
  induction refs with
  | nil => intro _; rfl
  | cons r rest ih =>
    intro h
    obtain ⟨kc, hkc⟩ := find?_of_mem_names f r (h r (List.mem_cons_self _ _))
    rw [List.filterMap_cons, hkc]
    show r :: (rest.filterMap _).map Prod.fst = r :: rest
    rw [ih (fun x hx => h x (List.mem_cons_of_mem _ hx))]

theorem selectColumns_ok (f : FlatFile) (refs : List String)
    (h : ∀ r ∈ refs, r ∈ f.cols.map Prod.fst) :
    ∀ t, selectColumns f refs = Except.ok t → t.names = refs := by
  intro t ht
  have hall : refs.all (fun r => decide (r ∈ f.cols.map Prod.fst)) = true := by
    rw [List.all_eq_true]
    intro r hr
    simp [h r hr]
  simp only [selectColumns, hall, if_true] at ht
  have := (Except.ok.injEq _ _).mp ht
  subst this
  exact filterMap_select_names f refs h

/- ## Claim theorems -/

/-- C1 (counterexample): for the JSON reader the column set is NOT always
exactly the requested reference list: a nested reference drags in its
sibling fields as extra columns (`json_normalize` flattens the whole
selected subtree).  Here requesting only `creator.name` also yields a
`creator.age` column. -/
theorem C1_counterexample :
    (read_json
      (JValue.obj [("items", JValue.arr
        [JValue.obj [("creator", JValue.obj
          [("name", JValue.str ("Ann")), ("age", JValue.str ("5"))])]])])
      "$.items[*]" ["creator.name"]).map DF.columns =
      Except.ok ["creator.name", "creator.age"] ∧
    (["creator.name", "creator.age"] : List String) ≠ ["creator.name"] :=
  ⟨rfl, by decide⟩

/-- C1 (amended): the XML reader's output columns are exactly the
requested references, in the caller's order, for every input; the JSON
reader's output columns always CONTAIN every requested reference (each
either extracted from the data or appended as a null column), but may
contain further data-derived columns. -/
theorem C1_column_invariant :
    (∀ (doc : XElem) (iterator : String) (references : List String) (df : DF),
        read_xml doc iterator references = Except.ok df → df.columns = references) ∧
    (∀ (doc : JValue) (iterator : String) (references : List String) (df : DF),
        read_json doc iterator references = Except.ok df →
          ∀ r ∈ references, r ∈ df.columns) :=
  ⟨read_xml_columns, read_json_columns⟩

/-- Witness for C1: both parts applied to the spec's concrete scenario. -/
theorem C1_column_invariant_witness :
    (DF.mk ["name", "tag"]
      [[Cell.scalar (some ("Ann")), Cell.scalar (some ("x"))],
       [Cell.scalar (some ("Ann")), Cell.scalar (some ("y"))],
       [Cell.scalar (some ("Bob")), Cell.nan]]).columns = ["name", "tag"] ∧
    "tag" ∈ (DF.mk ["name", "tag"]
      [[Cell.scalar (some ("Ann")), Cell.scalar (some ("x"))],
       [Cell.scalar (some ("Ann")), Cell.scalar (some ("y"))],
       [Cell.scalar (some ("Bob")), Cell.nan]]).columns :=
  ⟨C1_column_invariant.1 sampleXml ("/root/item") ["name", "tag"] _ rfl,
   C1_column_invariant.2 sampleJson ("$.items[*]") ["name", "tag"] _ rfl ("tag")
     (by decide)⟩

/-- C2: for every XML extraction, the table decomposes record by record,
and a record all of whose references resolve (with cardinalities `k1..kn`,
single-valued references having cardinality 1) contributes exactly
`k1 * ... * kn` rows, by the sequential left-to-right cross-product
expansion `expandCells`. -/
theorem C2_cross_product_law (doc : XElem) (iterator : String) (references : List String)
    (isegs : List String) (rsegs : List (List String))
    (hit : parseIterPath iterator = Except.ok isegs)
    (href : mapME parseRef references = Except.ok rsegs)
    (hnd : references.Nodup) :
    read_xml doc iterator references =
      Except.ok ⟨references, (iterSelect doc isegs).flatMap
        (fun e => expandCells (xmlRecordCells rsegs e))⟩ ∧
    ∀ e ∈ iterSelect doc isegs, (∀ segs ∈ rsegs, findallSegs e segs ≠ []) →
      (expandCells (xmlRecordCells rsegs e)).length =
        (rsegs.map (fun segs => (findallSegs e segs).length)).prod :=
  ⟨read_xml_ok doc iterator references isegs rsegs hit href hnd,
   fun e _ hc => expandCells_record_length rsegs e hc⟩

/-- Witness for C2: record A (`name` single-valued, `tag` with two
values) contributes exactly `1 * 2 = 2` rows. -/
theorem C2_cross_product_law_witness :
    (expandCells (xmlRecordCells [["name"], ["tag"]] itemA)).length = 2 :=
  ((C2_cross_product_law sampleXml ("/root/item") ["name", "tag"]
      ["root", "item"] [["name"], ["tag"]] rfl rfl (by decide)).2
    itemA (List.mem_cons_self _ _)
    (by
      intro segs hs
      rcases List.mem_cons.mp hs with rfl | hs
      · exact List.cons_ne_nil _ _
      · rcases List.mem_cons.mp hs with rfl | hs
        · exact List.cons_ne_nil _ _
        · cases hs)).trans rfl

/-- C4: rows appear in document order — the XML table is the
concatenation, over the selected records in document order, of the
spec's accumulator-built cross-product expansion (`specNormalize`, which
replicates each accumulator row `k` times, the `i`-th replica receiving
the `i`-th value). -/
theorem C4_row_order (doc : XElem) (iterator : String) (references : List String)
    (isegs : List String) (rsegs : List (List String))
    (hit : parseIterPath iterator = Except.ok isegs)
    (href : mapME parseRef references = Except.ok rsegs)
    (hnd : references.Nodup) :
    read_xml doc iterator references =
      Except.ok ⟨references, (iterSelect doc isegs).flatMap
        (fun e => specNormalize (xmlExtracted rsegs e))⟩ := by
  rw [read_xml_ok doc iterator references isegs rsegs hit href hnd]
  have : ∀ e, specNormalize (xmlExtracted rsegs e) = expandCells (xmlRecordCells rsegs e) := by
    intro e
    rw [specNormalize_eq_expandCells]
    simp [xmlExtracted, xmlRecordCells, List.map_map, Function.comp_def]
  simp only [this]

/-- Witness for C4: the spec's concrete scenario, in document order with
the in-record cross-product order. -/
theorem C4_row_order_witness :
    read_xml sampleXml ("/root/item") ["name", "tag"] =
      Except.ok ⟨["name", "tag"],
        [[Cell.scalar (some ("Ann")), Cell.scalar (some ("x"))],
         [Cell.scalar (some ("Ann")), Cell.scalar (some ("y"))],
         [Cell.scalar (some ("Bob")), Cell.nan]]⟩ :=
  (C4_row_order sampleXml ("/root/item") ["name", "tag"]
    ["root", "item"] [["name"], ["tag"]] rfl rfl (by decide)).trans rfl

/-- C3 (counterexample): there is no caller-selectable mode.  On a record
missing reference `tag`, BOTH readers emit one row (with null at `tag`) —
no extraction call realizes the claimed drop-incomplete behavior of
emitting zero rows for that record. -/
theorem C3_counterexample :
    (read_xml (XElem.mk ("root") none [itemB]) "/root/item" ["name", "tag"]).map
        (fun df => df.rows.length) = Except.ok 1 ∧
    (read_json (JValue.obj [("items", JValue.arr [JValue.obj [("name", JValue.str ("Bob"))]])])
        "$.items[*]" ["name", "tag"]).map (fun df => df.rows.length) = Except.ok 1 ∧
    (1 : Nat) ≠ 0 :=
  ⟨rfl, rfl, by decide⟩

/-- C3 (amended): the readers take no mode flag; the behavior is fixed by
the format.  The XML reader never drops a record (each selected record
contributes at least one row, absent references becoming nulls), while
the JSON reader's row count is the count of normalized records that
survive the unconditional explicit-null filter
(`None not in json_object.values()`). -/
theorem C3_format_fixed_modes :
    (∀ (doc : XElem) (iterator : String) (references : List String)
        (isegs : List String) (rsegs : List (List String)) (df : DF),
        parseIterPath iterator = Except.ok isegs →
        mapME parseRef references = Except.ok rsegs →
        references.Nodup →
        read_xml doc iterator references = Except.ok df →
        (iterSelect doc isegs).length ≤ df.rows.length) ∧
    (∀ (doc : JValue) (iterator : String) (references : List String)
        (steps : List JStep) (heads : List String) (df : DF),
        parseJsonIterator iterator = Except.ok steps →
        references.isEmpty = false →
        mapME compileHead references = Except.ok heads →
        read_json doc iterator references = Except.ok df →
        df.rows.length = (jsonKept doc steps heads).length) :=
  ⟨fun doc it refs isegs rsegs df hit href hnd h =>
      read_xml_no_record_dropped doc it refs isegs rsegs df hit href hnd h,
   fun doc it refs steps heads df hit hne hh h =>
      read_json_rows_length doc it refs steps heads df hit hne hh h⟩

/-- Witness for C3: the one-record XML document contributes its row
(keep-null), and the JSON record carrying an explicit `tag: null` is
dropped entirely (zero rows survive the null filter). -/
theorem C3_format_fixed_modes_witness :
    (1 : Nat) ≤ 1 ∧ (0 : Nat) =
      (jsonKept (JValue.obj [("items", JValue.arr
        [JValue.obj [("name", JValue.str ("Bob")), ("tag", JValue.null)]])])
        [JStep.field ("items"), JStep.anyElem] ["name", "tag"]).length :=
  ⟨C3_format_fixed_modes.1 (XElem.mk ("root") none [itemB]) "/root/item" ["name", "tag"]
      ["root", "item"] [["name"], ["tag"]] _ rfl rfl (by decide) rfl,
   C3_format_fixed_modes.2 (JValue.obj [("items", JValue.arr
        [JValue.obj [("name", JValue.str ("Bob")), ("tag", JValue.null)]])])
      "$.items[*]" ["name", "tag"] [JStep.field ("items"), JStep.anyElem]
      ["name", "tag"] _ rfl rfl rfl rfl⟩

/-- C5: a zero-match iterator path is not an error: the XML reader
returns the requested columns with zero rows (the reference list must be
duplicate-free, since `DataFrame.explode` raises on duplicate column
labels even on a zero-row frame); the JSON reader returns a zero-row
table whose columns are exactly the requested references (as a set,
deduplicated). -/
theorem C5_empty_match :
    (∀ (doc : XElem) (iterator : String) (references : List String)
        (isegs : List String),
        parseIterPath iterator = Except.ok isegs →
        iterSelect doc isegs = [] →
        references.Nodup →
        read_xml doc iterator references = Except.ok ⟨references, []⟩) ∧
    (∀ (doc : JValue) (iterator : String) (references : List String)
        (steps : List JStep) (heads : List String),
        parseJsonIterator iterator = Except.ok steps →
        references.isEmpty = false →
        mapME compileHead references = Except.ok heads →
        jsel doc steps = [] →
        read_json doc iterator references = Except.ok ⟨firstDedup [] references, []⟩ ∧
          ∀ r, r ∈ firstDedup [] references ↔ r ∈ references) :=
  ⟨fun doc it refs isegs hit hsel hnd => read_xml_empty doc it refs isegs hit hsel hnd,
   fun doc it refs steps heads hit hne hh hsel =>
     ⟨read_json_empty doc it refs steps heads hit hne hh hsel,
      fun r => by rw [mem_firstDedup]; simp⟩⟩

/-- Witness for C5: documents whose iterator matches nothing yield the
empty table with the requested columns. -/
theorem C5_empty_match_witness :
    read_xml (XElem.mk ("root") none []) "/root/item" ["name"] =
      Except.ok ⟨["name"], []⟩ ∧
    read_json (JValue.obj [("items", JValue.arr [])]) "$.items[*]" ["name"] =
      Except.ok ⟨["name"], []⟩ :=
  ⟨C5_empty_match.1 (XElem.mk ("root") none []) "/root/item" ["name"]
      ["root", "item"] rfl rfl (by decide),
   ((C5_empty_match.2 (JValue.obj [("items", JValue.arr [])]) "$.items[*]" ["name"]
      [JStep.field ("items"), JStep.anyElem] ["name"] rfl rfl rfl rfl).1).trans rfl⟩

/-- C6: a reference matching nothing anywhere raises no error and yields
a null in its column on every row, for both readers. -/
theorem C6_global_absence :
    (∀ (doc : XElem) (iterator : String) (references : List String)
        (isegs : List String) (rsegs : List (List String)) (R : String)
        (Rsegs : List String) (df : DF),
        parseIterPath iterator = Except.ok isegs →
        mapME parseRef references = Except.ok rsegs →
        references.Nodup →
        parseRef R = Except.ok Rsegs →
        (∀ e ∈ iterSelect doc isegs, findallSegs e Rsegs = []) →
        read_xml doc iterator references = Except.ok df →
        df.nullAtNamed R) ∧
    (∀ (doc : JValue) (iterator : String) (references : List String)
        (steps : List JStep) (heads : List String) (R : String) (df : DF),
        parseJsonIterator iterator = Except.ok steps →
        references.isEmpty = false →
        mapME compileHead references = Except.ok heads →
        R ∉ jsonCols doc steps heads →
        read_json doc iterator references = Except.ok df →
        df.nullAtNamed R) :=
  ⟨fun doc it refs isegs rsegs R Rsegs df hit href hnd hR habs h =>
      read_xml_null_column doc it refs isegs rsegs R Rsegs df hit href hnd hR habs h,
   fun doc it refs steps heads R df hit hne hh habs h =>
      read_json_null_column doc it refs steps heads R df hit hne hh habs h⟩

/-- Witness for C6: the spec's `missing_field` scenario on both readers. -/
theorem C6_global_absence_witness :
    (DF.mk ["name", "missing_field"]
      [[Cell.scalar (some ("Ann")), Cell.nan],
       [Cell.scalar (some ("Bob")), Cell.nan]]).nullAtNamed ("missing_field") ∧
    (DF.mk ["name", "missing_field"]
      [[Cell.scalar (some ("Ann")), Cell.nan],
       [Cell.scalar (some ("Bob")), Cell.nan]]).nullAtNamed ("missing_field") :=
  ⟨C6_global_absence.1 sampleXml ("/root/item") ["name", "missing_field"]
      ["root", "item"] [["name"], ["missing_field"]] "missing_field" ["missing_field"]
      _ rfl rfl (by decide) rfl
      (by
        intro e he
        rcases List.mem_cons.mp he with rfl | he
        · rfl
        · rcases List.mem_cons.mp he with rfl | he
          · rfl
          · cases he)
      rfl,
   C6_global_absence.2 sampleJson ("$.items[*]") ["name", "missing_field"]
      [JStep.field ("items"), JStep.anyElem] ["name", "missing_field"] "missing_field"
      _ rfl rfl rfl (by decide) rfl⟩

/-- C7 (counterexample): a malformed field reference does NOT always fail
the call.  `name..x` is malformed (empty middle segment), yet the JSON
reader succeeds: only the first dot-segment of a reference is ever
compiled; the rest merely names a null-filled column. -/
theorem C7_counterexample :
    validJsonRef ("name..x") = false ∧
    read_json (JValue.obj [("items", JValue.arr [JValue.obj [("name", JValue.str ("Bob"))]])])
        "$.items[*]" ["name..x"] =
      Except.ok ⟨["name", "name..x"], [[Cell.scalar (some ("Bob")), Cell.nan]]⟩ :=
  ⟨rfl, rfl⟩

/-- C7 (amended): structural absence is never an error, and the failure
half of the original claim does not survive the code.  A compiled
iterator matching zero records yields the empty XML table — the
references are then never compiled at all, so even a reference the
library genuinely rejects (such as `a[`, on which ElementTree raises)
causes no error; and once the JSON expression — the iterator plus only
the FIRST dot-segment of every reference — compiles, the JSON call
always returns a table, whatever the rest of each reference contains
(records selected by the iterator assumed object-shaped).  Which strings
the real path compilers reject is library syntax this embedding does not
model, so no theorem asserts that a given string fails the real call. -/
theorem C7_error_behavior :
    (∀ (doc : XElem) (iterator : String) (references : List String)
        (isegs : List String),
        parseIterPath iterator = Except.ok isegs →
        iterSelect doc isegs = [] →
        references.Nodup →
        read_xml doc iterator references = Except.ok ⟨references, []⟩) ∧
    (∀ (doc : JValue) (iterator : String) (references : List String)
        (steps : List JStep) (heads : List String),
        parseJsonIterator iterator = Except.ok steps →
        references.isEmpty = false →
        mapME compileHead references = Except.ok heads →
        (∀ v ∈ jsel doc steps, ∃ fs, v = JValue.obj fs) →
        ∃ df, read_json doc iterator references = Except.ok df) ∧
    read_xml (XElem.mk ("root") none []) "/root/item" ["a["] =
      Except.ok ⟨["a["], []⟩ :=
  ⟨fun doc it refs isegs hit hsel hnd =>
      read_xml_empty doc it refs isegs hit hsel hnd,
   fun doc it refs steps heads hit hne hh hobj =>
      read_json_ok_after_compile doc it refs steps heads hit hne hh hobj,
   read_xml_empty (XElem.mk ("root") none []) ("/root/item") ["a["]
      ["root", "item"] rfl rfl (by decide)⟩

/-- Witness for C7: a zero-match XML call succeeds even though a
reference is present; the JSON call succeeds with the tail-malformed
reference `name..x`. -/
theorem C7_error_behavior_witness :
    read_xml (XElem.mk ("root") none [XElem.mk ("item") none []]) "/root/hits" ["name"] =
      Except.ok ⟨["name"], []⟩ ∧
    ∃ df, read_json sampleJson ("$.items[*]") ["name..x"] = Except.ok df :=
  ⟨C7_error_behavior.1 (XElem.mk ("root") none [XElem.mk ("item") none []])
      ("/root/hits") ["name"] ["root", "hits"] rfl rfl (by decide),
   C7_error_behavior.2.1 sampleJson ("$.items[*]") ["name..x"]
      [JStep.field ("items"), JStep.anyElem] ["name"] rfl rfl rfl
      (by
        intro v hv
        rcases List.mem_cons.mp hv with rfl | hv
        · exact ⟨_, rfl⟩
        · rcases List.mem_cons.mp hv with rfl | hv
          · exact ⟨_, rfl⟩
          · cases hv)⟩

/-- C8: the embedded extraction functions are pure, hence running the
same extraction twice on the same document, iterator, references (and
the same mapping rule for the dispatcher) yields identical tables. -/
theorem C8_determinism :
    (∀ (doc : JValue) (iterator : String) (references : List String),
        read_json doc iterator references = read_json doc iterator references) ∧
    (∀ (doc : XElem) (iterator : String) (references : List String),
        read_xml doc iterator references = read_xml doc iterator references) ∧
    (∀ (rule : MappingRule) (references : List String),
        get_file_data rule references = get_file_data rule references) :=
  ⟨fun _ _ _ => rfl, fun _ _ _ => rfl, fun _ _ => rfl⟩

/-- C9 (counterexample): the SAS reader ignores the requested column
list entirely — it returns every column of the file. -/
theorem C9_counterexample :
    (_read_sas ⟨"SAS7BDAT", "", DataSource.flatSource
        ⟨[("a", [PValue.pnum 1]), ("b", [PValue.pnum 2])]⟩⟩ ["a"]).map PTable.names =
      Except.ok ["a", "b"] ∧
    (["a", "b"] : List String) ≠ ["a"] :=
  ⟨rfl, by decide⟩

/-- C9 (amended): the CSV/TSV reader returns exactly the requested
columns (in file order), string-typed with the raw text preserved (no
null coercion); the Parquet reader returns exactly the requested columns
in requested order with native values; the SAS reader ignores the
requested list and returns the whole file. -/
theorem C9_flat_readers :
    (∀ (rule : MappingRule) (references : List String) (f : CsvFile) (t : PTable),
        rule.data_source = DataSource.csvSource f →
        (∀ r ∈ references, r ∈ f.cols.map Prod.fst) →
        _read_csv rule references = Except.ok t →
        (∀ n ∈ t.names, n ∈ references) ∧
        (∀ r ∈ references, r ∈ t.names) ∧
        (∀ col ∈ t.cols, ∃ fc ∈ f.cols, fc.1 = col.1 ∧ col.2 = fc.2.map PValue.pstr)) ∧
    (∀ (rule : MappingRule) (references : List String) (f : FlatFile) (t : PTable),
        rule.data_source = DataSource.flatSource f →
        (∀ r ∈ references, r ∈ f.cols.map Prod.fst) →
        _read_parquet rule references = Except.ok t →
        t.names = references) ∧
    (∀ (rule : MappingRule) (references : List String) (f : FlatFile) (t : PTable),
        rule.data_source = DataSource.flatSource f →
        _read_sas rule references = Except.ok t →
        t.cols = f.cols) := by
  refine ⟨?_, ?_, ?_⟩
  · intro rule references f t hds h ht
    have hall : references.all (fun r => decide (r ∈ f.cols.map Prod.fst)) = true := by
      rw [List.all_eq_true]; intro r hr; simp [h r hr]
    rw [_read_csv, hds] at ht
    simp only [hall, if_true] at ht
    have := (Except.ok.injEq _ _).mp ht
    subst this
    refine ⟨?_, ?_, ?_⟩
    · intro n hn
      simp only [PTable.names, List.map_map, List.mem_map, Function.comp_apply] at hn
      obtain ⟨kc, hkc, rfl⟩ := hn
      have := List.of_mem_filter hkc
      simpa using this
    · intro r hr
      have hrf : r ∈ f.cols.map Prod.fst := h r hr
      simp only [List.mem_map] at hrf
      obtain ⟨kc, hkc, rfl⟩ := hrf
      simp only [PTable.names, List.map_map, List.mem_map, Function.comp_apply]
      refine ⟨kc, ?_, rfl⟩
      apply List.mem_filter.mpr
      exact ⟨hkc, by simp [hr]⟩
    · intro col hcol
      simp only [List.mem_map] at hcol
      obtain ⟨kc, hkc, rfl⟩ := hcol
      exact ⟨kc, List.mem_of_mem_filter hkc, rfl, rfl⟩
  · intro rule references f t hds h ht
    rw [_read_parquet, hds] at ht
    exact selectColumns_ok f references h t ht
  · intro rule references f t hds ht
    rw [_read_sas, hds] at ht
    have := (Except.ok.injEq _ _).mp ht
    subst this
    rfl

/-- Witness for C9: a two-column file read as CSV, Parquet and SAS. -/
theorem C9_flat_readers_witness :
    ((∀ n ∈ (PTable.mk [("a", [PValue.pstr ("x")]), ("b", [PValue.pstr ("NA")])]).names,
        n ∈ ["b", "a"]) ∧
      (∀ r ∈ ["b", "a"],
        r ∈ (PTable.mk [("a", [PValue.pstr ("x")]), ("b", [PValue.pstr ("NA")])]).names) ∧
      (∀ col ∈ (PTable.mk [("a", [PValue.pstr ("x")]), ("b", [PValue.pstr ("NA")])]).cols,
        ∃ fc ∈ (CsvFile.mk [("a", ["x"]), ("b", ["NA"])]).cols,
          fc.1 = col.1 ∧ col.2 = fc.2.map PValue.pstr)) ∧
    (PTable.mk [("b", [PValue.pnum 2]), ("a", [PValue.pnum 1])]).names = ["b", "a"] ∧
    (PTable.mk [("a", [PValue.pnum 1]), ("b", [PValue.pnum 2])]).cols =
      FlatFile.cols ⟨[("a", [PValue.pnum 1]), ("b", [PValue.pnum 2])]⟩ :=
  ⟨C9_flat_readers.1 ⟨"CSV", "", DataSource.csvSource ⟨[("a", ["x"]), ("b", ["NA"])]⟩⟩
      ["b", "a"] ⟨[("a", ["x"]), ("b", ["NA"])]⟩ _ rfl (by decide) rfl,
   C9_flat_readers.2.1 ⟨"PARQUET", "", DataSource.flatSource
      ⟨[("a", [PValue.pnum 1]), ("b", [PValue.pnum 2])]⟩⟩
      ["b", "a"] ⟨[("a", [PValue.pnum 1]), ("b", [PValue.pnum 2])]⟩ _ rfl (by decide) rfl,
   C9_flat_readers.2.2 ⟨"SAS7BDAT", "", DataSource.flatSource
      ⟨[("a", [PValue.pnum 1]), ("b", [PValue.pnum 2])]⟩⟩
      ["a"] ⟨[("a", [PValue.pnum 1]), ("b", [PValue.pnum 2])]⟩ _ rfl rfl⟩

/-- C10: an unrecognized source type makes `get_file_data` raise the
`ValueError` naming the offending type, identically for every data
source (nothing is opened or read). -/
theorem C10_invalid_source_type (st iter : String) (ds : DataSource)
    (references : List String)
    (h1 : st ≠ CSV) (h2 : st ≠ TSV) (h3 : st ∉ EXCEL) (h4 : st ∉ ODS)
    (h5 : st ≠ PARQUET) (h6 : st ∉ FEATHER) (h7 : st ≠ ORC) (h8 : st ≠ STATA)
    (h9 : st ∉ SAS) (h10 : st ≠ SPSS) (h11 : st ≠ JSON) (h12 : st ≠ XML) :
    get_file_data ⟨st, iter, ds⟩ references =
      Except.error (FileError.valueError
        ("Found an invalid source type. Found value `" ++ st ++ "`.")) ∧
    ∀ ds' : DataSource,
      get_file_data ⟨st, iter, ds'⟩ references =
        get_file_data ⟨st, iter, ds⟩ references := by
  have key : ∀ d : DataSource, get_file_data ⟨st, iter, d⟩ references =
      Except.error (FileError.valueError
        ("Found an invalid source type. Found value `" ++ st ++ "`.")) := by
    intro d
    simp only [get_file_data]
    rw [if_neg (by rintro (h | h); exact h1 h; exact h2 h)]
    rw [if_neg h3, if_neg h4, if_neg h5, if_neg h6, if_neg h7, if_neg h8,
      if_neg h9, if_neg h10, if_neg h11, if_neg h12]
  exact ⟨key ds, fun ds' => (key ds').trans (key ds).symm⟩

/-- Witness for C10: `"SQL"` is not a recognized source type. -/
theorem C10_invalid_source_type_witness :
    get_file_data ⟨"SQL", "", DataSource.csvSource ⟨[]⟩⟩ ["a"] =
      Except.error (FileError.valueError
        ("Found an invalid source type. Found value `" ++ "SQL" ++ "`.")) ∧
    ∀ ds' : DataSource,
      get_file_data ⟨"SQL", "", ds'⟩ ["a"] =
        get_file_data ⟨"SQL", "", DataSource.csvSource ⟨[]⟩⟩ ["a"] :=
  C10_invalid_source_type ("SQL") "" (DataSource.csvSource ⟨[]⟩) ["a"]
    (by decide) (by decide) (by decide) (by decide) (by decide) (by decide)
    (by decide) (by decide) (by decide) (by decide) (by decide) (by decide)
